import Mathlib

/-!
# AttachFlow core engine — Lean embedding and verification

A shallow embedding of `src/attachflow_core/email_core.py`, the rule-execution
engine of AttachFlow: search-criteria construction (`_build_search_criteria`),
attachment extraction (`_iter_attachments`), collision-safe filename synthesis
(`build_download_filename`) and the rule runner (`run_rule`).

Modelling conventions:
* Python strings are `String`, byte strings are `List Nat`, sets are
  `Finset String`, integers are `Nat`.
* External collaborators that the engine only calls through narrow interfaces
  are oracles supplied in an environment record: the IMAP server
  (connect/select/search/fetch outcomes and post-action successes), the
  filesystem (the set of names already present in the destination directory
  and per-path write success), `re.search`, and `datetime.strftime`.
* Fallible operations return `Option` (`none` = the Python call raised) and a
  propagating exception is recorded in the `raised` flag of the run output.
* Paths are modelled as bare file names inside the fixed destination
  directory; `AttachFlow.pathSuffix`/`AttachFlow.pathStem` reimplement CPython's
  `PurePath.suffix`/`PurePath.stem` on such names.
* Error strings appended to `RunStats.errors` are represented structurally
  (which UID / path the interpolated message refers to) by `RunError`, since
  the exact exception text comes from external libraries.
* The Python format-string template is represented as a list of tokens
  (`TmplTok`), one per literal run or recognized placeholder; `str.format` and
  the `{date:...}` regex substitution become token-wise rendering.
-/

namespace AttachFlow

/-! ## Decimal rendering of naturals (`str(uid)`, `f"..._{counter}"`)

Python renders counters and UIDs in decimal; the embedding uses `Nat.repr`.
The collision-resolution proof needs that distinct counters yield distinct
file names, hence injectivity of `Nat.repr`, proved by a decode round-trip
through `Nat.digits`.
-/

/-- Decimal value of a digit character produced by `Nat.digitChar`. -/
def charVal (c : Char) : Nat := c.toNat - '0'.toNat

theorem charVal_digitChar : ∀ d : Nat, d < 10 → charVal (Nat.digitChar d) = d := by
  decide

theorem toDigitsCore_eq_digits (fuel : Nat) :
    ∀ (n : Nat) (ds : List Char), 0 < n → n ≤ fuel →
      Nat.toDigitsCore 10 fuel n ds =
        ((Nat.digits 10 n).map Nat.digitChar).reverse ++ ds := by
  induction fuel with
  | zero => intro n ds h0 hf; omega
  | succ fuel ih =>
    intro n ds h0 hf
    rw [Nat.toDigitsCore]
    by_cases hdiv : n / 10 = 0
    · rw [if_pos hdiv]
      rw [Nat.digits_def' (by norm_num : (1:Nat) < 10) h0, hdiv]
      simp
    · rw [if_neg hdiv]
      have hlt : n / 10 < n := Nat.div_lt_self h0 (by norm_num)
      have h0' : 0 < n / 10 := Nat.pos_of_ne_zero hdiv
      rw [ih (n / 10) (Nat.digitChar (n % 10) :: ds) h0' (by omega)]
      rw [Nat.digits_def' (by norm_num : (1:Nat) < 10) h0]
      simp

/-- Decoding a decimal string back to the natural it renders. -/
def reprVal (s : String) : Nat := Nat.ofDigits 10 (s.data.reverse.map charVal)

theorem reprVal_repr (n : Nat) : reprVal (Nat.repr n) = n := by
  rcases Nat.eq_zero_or_pos n with h0 | h0
  · subst h0; rfl
  · have : Nat.repr n = ⟨((Nat.digits 10 n).map Nat.digitChar).reverse⟩ := by
      show (Nat.toDigits 10 n).asString = _
      rw [Nat.toDigits, toDigitsCore_eq_digits (n + 1) n [] h0 (by omega)]
      simp [List.asString]
    rw [this, reprVal]
    simp only [List.reverse_reverse, List.map_map]
    have hmap : (Nat.digits 10 n).map (charVal ∘ Nat.digitChar) = Nat.digits 10 n := by
      apply List.map_congr_left ?_ |>.trans (List.map_id _)
      intro d hd
      exact charVal_digitChar d (Nat.digits_lt_base (by norm_num) hd)
    rw [hmap, Nat.ofDigits_digits]

theorem natRepr_injective : Function.Injective Nat.repr := by
  intro a b h
  have ha := reprVal_repr a
  rw [h, reprVal_repr b] at ha
  exact ha.symm

/-! ## Path helpers (CPython `PurePath.suffix` / `PurePath.stem`)

CPython computes `suffix` as: let `i = name.rfind('.')`; if `0 < i < len(name)-1`
then `name[i:]` else `""`, and `stem` correspondingly. The attachment name is a
bare file name (no directory separators), matching how `run_rule` uses it.
-/

/-- Index of the last occurrence of `c` in `l`, if any (`str.rfind`). -/
def rfindIdx (l : List Char) (c : Char) : Option Nat :=
  ((l.enum.filter (fun p => p.2 = c)).map Prod.fst).getLast?

/-- `PurePath(name).suffix`. -/
def pathSuffix (name : String) : String :=
  match rfindIdx name.data '.' with
  | none => ""
  | some i =>
    if 0 < i ∧ i < name.data.length - 1 then String.mk (name.data.drop i) else ""

/-- `PurePath(name).stem`. -/
def pathStem (name : String) : String :=
  match rfindIdx name.data '.' with
  | none => name
  | some i =>
    if 0 < i ∧ i < name.data.length - 1 then String.mk (name.data.take i) else name

/-! ## `_sanitize_filename` -/

/-- The characters of the character class in `re.sub(r'[\\/*?:"<>|]', "_", name)`. -/
def forbiddenChars : List Char := ['\\', '/', '*', '?', ':', '\"', '<', '>', '|']

/-- `_sanitize_filename`: replace each forbidden character with an underscore. -/
def sanitize (s : String) : String :=
  String.mk (s.data.map (fun c => if c ∈ forbiddenChars then '_' else c))

/-! ## Configuration dataclasses -/

/-- `EmailAccountConfig` (the fields the core reads). -/
structure EmailAccountConfig where
  host : String := ""
  port : Nat := 993
  username : String := ""
  password : String := ""
  use_ssl : Bool := true
  folder : String := "INBOX"
  name : String := ""
deriving DecidableEq

/-- One token of a filename template: a literal run or a recognized
placeholder of `str.format` / the `{date:...}` pattern. -/
inductive TmplTok where
  | lit (s : String)
  | date (fmt : String)
  | rule_name
  | account_name
  | original_name
  | index
  | ext
deriving DecidableEq

/-- The default template `"{date:%Y.%m.%d %H.%M} - {rule_name}{index}{ext}"`
as a token list. -/
def defaultTemplate : List TmplTok :=
  [.date "%Y.%m.%d %H.%M", .lit " - ", .rule_name, .index, .ext]

/-- `RuleConfig`. The template is stored tokenized; the empty token list plays
the role of Python's falsy empty template string. -/
structure RuleConfig where
  account : EmailAccountConfig := {}
  name : String := ""
  imap_folder : String := "INBOX"
  from_contains : String := ""
  subject_contains : String := ""
  filename_regex : String := ""
  dest_folder : String := ""
  mark_as_read : Bool := true
  move_to_folder : String := ""
  filename_template : List TmplTok := defaultTemplate
deriving DecidableEq

/-- `rule.account.name or rule.account.username`. -/
def accountDisplayName (rule : RuleConfig) : String :=
  if rule.account.name = "" then rule.account.username else rule.account.name

/-! ## Parsed messages and attachment extraction (`_iter_attachments`) -/

/-- One part of the MIME tree as `msg.walk()` visits it. `payload` is the
result of `part.get_payload(decode=True)`: `none` when that call returns
`None` (undecodable / non-leaf part). -/
structure MsgPart where
  content_disposition : Option String := none
  filename : Option String := none
  payload : Option (List Nat) := none
deriving DecidableEq

/-- A parsed email message: its walk sequence plus the headers the engine
reads. `date` is an abstract timestamp (`none` = no parseable `Date` header,
matching `_get_message_datetime` returning `None`). -/
structure Msg where
  parts : List MsgPart := []
  message_id : String := ""
  date : Option Nat := none
deriving DecidableEq

/-- `_iter_attachments`: parts whose content-disposition is exactly
`"attachment"` and that carry a truthy filename yield
`(filename, payload or b"")`. -/
def iter_attachments (m : Msg) : List (String × List Nat) :=
  m.parts.filterMap (fun p =>
    if p.content_disposition ≠ some "attachment" then none
    else match p.filename with
      | none => none
      | some f => if f = "" then none else some (f, p.payload.getD []))

/-! ## Search criteria (`_build_search_criteria`) and their IMAP semantics -/

/-- `_build_search_criteria`: the criteria list sent to `IMAPClient.search`. -/
def build_search_criteria (rule : RuleConfig) : List String :=
  ["ALL"]
    ++ (if rule.from_contains ≠ "" then ["FROM", rule.from_contains] else [])
    ++ (if rule.subject_contains ≠ "" then ["SUBJECT", rule.subject_contains] else [])

/-- The message header fields an IMAP `SEARCH` with `FROM`/`SUBJECT` keys
inspects. -/
structure Envelope where
  fromAddr : String := ""
  subject : String := ""
deriving DecidableEq

/-- Substring test used to model IMAP's `FROM`/`SUBJECT` containment. -/
def containsSub (hay pat : String) : Bool :=
  (List.range (hay.data.length + 1)).any (fun i => pat.data.isPrefixOf (hay.data.drop i))

/-- Modelled from the spec: the IMAP server's evaluation of a criteria list
(the server itself is outside the repository). A criteria list is a
conjunction: `ALL` matches everything, `FROM s` / `SUBJECT s` match messages
whose corresponding header contains `s`. -/
def matchesCriteria (e : Envelope) : List String → Bool
  | [] => true
  | "ALL" :: rest => matchesCriteria e rest
  | "FROM" :: s :: rest => containsSub e.fromAddr s && matchesCriteria e rest
  | "SUBJECT" :: s :: rest => containsSub e.subject s && matchesCriteria e rest
  | _ => false

/-! ## The environment: IMAP session, filesystem, `re`, `datetime` oracles -/

/-- Outcomes the IMAP server produces during one run. `fetch uid = none`
means `client.fetch([uid], ...)` raises; post-action success flags only feed
the log (the code swallows those exceptions). -/
structure Session where
  connectOk : Bool := true
  selectOk : Bool := true
  searchOk : Bool := true
  searchResult : List Nat := []
  fetch : Nat → Option Msg := fun _ => none
  markSeenOk : Nat → Bool := fun _ => true
  moveOk : Nat → Bool := fun _ => true

/-- The ambient world of one `run_rule` call. `fs` is the set of file names
already present in the destination directory; `writeOk` says whether writing
a given name succeeds; `regexSearch pat s` models `re.search(pat, s)`
returning a match; `strftime` / `now` model `datetime`. -/
structure Env where
  session : Session := {}
  fs : List String := []
  writeOk : String → Bool := fun _ => true
  regexSearch : String → String → Bool := fun _ _ => true
  strftime : Nat → String → String := fun _ _ => ""
  now : Nat := 0

/-! ## `build_download_filename` -/

/-- The `{index}` placeholder value: `f"_{index}" if index > 1 else ""`. -/
def indexPlaceholder (index : Nat) : String :=
  if 1 < index then "_" ++ Nat.repr index else ""

/-- Rendering of one template token (`str.format` + the `{date:...}`
substitution of `_format_date_in_template`). -/
def renderTok (env : Env) (rule : RuleConfig) (msgDate : Nat)
    (originalStem extStr idxStr : String) : TmplTok → String
  | .lit s => s
  | .date fmt => env.strftime msgDate fmt
  | .rule_name => rule.name
  | .account_name => accountDisplayName rule
  | .original_name => originalStem
  | .index => idxStr
  | .ext => extStr

/-- Rendering of a whole template. -/
def renderTemplate (env : Env) (rule : RuleConfig) (msgDate : Nat)
    (originalStem extStr idxStr : String) (tmpl : List TmplTok) : String :=
  String.join (tmpl.map (renderTok env rule msgDate originalStem extStr idxStr))

/-- The sanitized name computed by `build_download_filename` before the
collision loop (steps 1–2 of the function plus `_sanitize_filename`). -/
def computedName (env : Env) (msg : Msg) (attachment_name : String)
    (rule : RuleConfig) (index : Nat) : String :=
  let msg_date := msg.date.getD env.now
  let extStr := pathSuffix attachment_name
  let original_stem := pathStem attachment_name
  let template :=
    if rule.filename_template = [] then defaultTemplate else rule.filename_template
  sanitize (renderTemplate env rule msg_date original_stem extStr
    (indexPlaceholder index) template)

/-- The collision candidate for counter `c`:
`f"{base}_{c}{ext}"` with `base = safe_name[:-len(ext)] if ext else safe_name`. -/
def candidate (safe extStr : String) (c : Nat) : String :=
  let base := if extStr ≠ "" then safe.dropRight extStr.length else safe
  base ++ "_" ++ Nat.repr c ++ extStr

/-- The `while final_path.exists()` loop of `build_download_filename`,
run with explicit fuel. `c` is the Python `counter`. The fuel passed by
`resolveCollision` is proved sufficient (`resolveCollision_spec`), so the
out-of-fuel branch is never reached and the definition agrees with the
unbounded source loop. -/
def resolveCollisionAux (fs : List String) (safe extStr : String) :
    Nat → Nat → String
  | 0, c => candidate safe extStr c
  | fuel + 1, c =>
    let cand := candidate safe extStr c
    if cand ∈ fs then resolveCollisionAux fs safe extStr fuel (c + 1) else cand

/-- Step 3 of `build_download_filename`: keep the computed name if it is
free, otherwise append `_2`, `_3`, … before the extension. -/
def resolveCollision (fs : List String) (safe extStr : String) : String :=
  if safe ∈ fs then resolveCollisionAux fs safe extStr (fs.length + 1) 2 else safe

/-- `build_download_filename`: template rendering, sanitization and
collision resolution against the names `fs` present in the destination
directory. -/
def build_download_filename (env : Env) (msg : Msg) (attachment_name : String)
    (rule : RuleConfig) (index : Nat) (fs : List String) : String :=
  resolveCollision fs (computedName env msg attachment_name rule index)
    (pathSuffix attachment_name)

/-! ## `run_rule` -/

/-- `AttachmentDownload`: the audit record appended for one saved file. -/
structure AttachmentDownload where
  rule_name : String
  account_name : String
  folder : String
  uid : String
  message_id : String
  original_filename : String
  final_path : String
  size_bytes : Nat
deriving DecidableEq

/-- The entries of `stats.errors`, kept structurally: which failure produced
the string and what it interpolates. -/
inductive RunError where
  | connectError
  | fetchError (uid : Nat)
  | writeError (path : String)
deriving DecidableEq

/-- `RunStats`. -/
structure RunStats where
  emails_processed : Nat := 0
  attachments_downloaded : Nat := 0
  errors : List RunError := []
  downloaded_attachments : List AttachmentDownload := []
  processed_uids : Finset String := ∅
deriving DecidableEq

/-- One observable call on the IMAP session, in order. Post-action calls
record whether the server obeyed (the code attempts them regardless and only
logs failures). -/
inductive Call where
  | select (folder : String)
  | search
  | fetch (uid : Nat)
  | markSeen (uid : Nat) (ok : Bool)
  | move (uid : Nat) (folder : String) (ok : Bool)
  | logout
deriving DecidableEq

/-- State threaded through the per-UID loop of `run_rule`. `caller` is the
caller-supplied `processed_uids` set: the source only performs membership
tests on it, so the embedding threads it unchanged. -/
structure LoopState where
  stats : RunStats := {}
  fs : List String := []
  calls : List Call := []
  caller : Finset String := ∅

/-- The outcome of a `run_rule` call: the returned stats, the session call
trace, whether an exception propagated to the caller (`raised = true` means
the function did NOT return `stats` but raised after the `finally` block),
the final destination-directory contents, and the caller's set after the
call. -/
structure RunOutput where
  stats : RunStats
  calls : List Call
  raised : Bool
  fs : List String
  caller : Finset String

/-- Whether an attachment of name `filename` passes the optional
`filename_regex` filter (the `continue` at the top of the attachment loop). -/
def passesFilter (env : Env) (rule : RuleConfig) (filename : String) : Bool :=
  rule.filename_regex = "" || env.regexSearch rule.filename_regex filename

/-- The body of `for filename, payload in _iter_attachments(msg)`.
The accumulator carries `attachment_index`, the statistics and the current
directory contents. -/
def processAttachment (env : Env) (rule : RuleConfig) (msg : Msg)
    (uid_str message_id : String) (acc : Nat × RunStats × List String)
    (att : String × List Nat) : Nat × RunStats × List String :=
  let (attachment_index, stats, fs) := acc
  let (filename, payload) := att
  if ¬ passesFilter env rule filename then acc
  else
    let idx := attachment_index + 1
    let final_path := build_download_filename env msg filename rule idx fs
    if env.writeOk final_path then
      let record : AttachmentDownload :=
        { rule_name := rule.name
          account_name := accountDisplayName rule
          folder := rule.imap_folder
          uid := uid_str
          message_id := message_id
          original_filename := filename
          final_path := final_path
          size_bytes := payload.length }
      (idx,
        { stats with
            attachments_downloaded := stats.attachments_downloaded + 1
            downloaded_attachments := stats.downloaded_attachments ++ [record] },
        fs ++ [final_path])
    else
      (idx, { stats with errors := stats.errors ++ [.writeError final_path] }, fs)

/-- The body of `for uid in uids` in `run_rule`: skip already-processed UIDs,
fetch (recording a per-message error on failure), extract and save
attachments, and when at least one attachment was counted mark the UID
processed and attempt the post-actions. -/
def processUid (env : Env) (rule : RuleConfig) (st : LoopState) (uid : Nat) :
    LoopState :=
  let uid_str := Nat.repr uid
  if uid_str ∈ st.caller then st
  else
    match env.session.fetch uid with
    | none =>
      { st with
          stats := { st.stats with errors := st.stats.errors ++ [.fetchError uid] }
          calls := st.calls ++ [.fetch uid] }
    | some msg =>
      let stats0 := { st.stats with emails_processed := st.stats.emails_processed + 1 }
      let folded :=
        (iter_attachments msg).foldl
          (processAttachment env rule msg uid_str msg.message_id) (0, stats0, st.fs)
      let attachment_index := folded.1
      let stats1 := folded.2.1
      let fs1 := folded.2.2
      let calls1 := st.calls ++ [.fetch uid]
      if 0 < attachment_index then
        let stats2 :=
          { stats1 with processed_uids := insert uid_str stats1.processed_uids }
        let calls2 :=
          calls1
            ++ (if rule.mark_as_read then
                  [.markSeen uid (env.session.markSeenOk uid)] else [])
            ++ (if rule.move_to_folder ≠ "" then
                  [.move uid rule.move_to_folder (env.session.moveOk uid)] else [])
        { st with stats := stats2, fs := fs1, calls := calls2 }
      else
        { st with stats := stats1, fs := fs1, calls := calls1 }

/-- `run_rule`. A `none` second argument is Python's `processed_uids=None`
(replaced by the empty set). Connection failure returns early with a single
error entry; a `select_folder` or `search` failure propagates out of the
function (`raised = true`) after the `finally` block attempts `logout`. -/
def run_rule (rule : RuleConfig) (processed_uids : Option (Finset String))
    (env : Env) : RunOutput :=
  let processed := processed_uids.getD ∅
  if ¬ env.session.connectOk then
    { stats := { errors := [.connectError] }, calls := [], raised := false,
      fs := env.fs, caller := processed }
  else if ¬ env.session.selectOk then
    { stats := {}, calls := [.select rule.imap_folder, .logout], raised := true,
      fs := env.fs, caller := processed }
  else if ¬ env.session.searchOk then
    { stats := {}, calls := [.select rule.imap_folder, .search, .logout],
      raised := true, fs := env.fs, caller := processed }
  else
    let init : LoopState :=
      { stats := {}, fs := env.fs,
        calls := [.select rule.imap_folder, .search], caller := processed }
    let final := env.session.searchResult.foldl (processUid env rule) init
    { stats := final.stats, calls := final.calls ++ [.logout], raised := false,
      fs := final.fs, caller := final.caller }

/-! ## Derived predicates and loop characterizations -/

/-- At least one extracted attachment of `m` passes the filename filter:
exactly the condition under which the source's `attachment_index` ends `> 0`. -/
def msgQualifies (env : Env) (rule : RuleConfig) (m : Msg) : Bool :=
  (iter_attachments m).any (fun att => passesFilter env rule att.1)

/-- A UID in the search result gets marked processed this run: it is not in
the caller's set, its fetch succeeds, and the message has at least one
filter-passing attachment. -/
def uidQualifies (env : Env) (rule : RuleConfig) (caller : Finset String)
    (uid : Nat) : Bool :=
  !(decide (Nat.repr uid ∈ caller)) &&
    (match env.session.fetch uid with
     | none => false
     | some m => msgQualifies env rule m)

/-- The set of UID strings `run_rule` marks processed. -/
def newlyProcessed (env : Env) (rule : RuleConfig) (caller : Finset String)
    (uids : List Nat) : Finset String :=
  ((uids.filter (uidQualifies env rule caller)).map Nat.repr).toFinset

/-- All three session-setup steps succeed. -/
def runOk (env : Env) : Prop :=
  env.session.connectOk = true ∧ env.session.selectOk = true ∧
    env.session.searchOk = true

instance (env : Env) : Decidable (runOk env) := by
  unfold runOk; infer_instance

/-- The loop state before the first UID. -/
def initState (rule : RuleConfig) (p : Finset String) (env : Env) : LoopState :=
  { stats := {}, fs := env.fs, calls := [.select rule.imap_folder, .search],
    caller := p }

/-- The loop state after the whole per-UID loop. -/
def finalState (rule : RuleConfig) (p : Finset String) (env : Env) : LoopState :=
  env.session.searchResult.foldl (processUid env rule) (initState rule p env)

theorem run_rule_ok_eq (rule : RuleConfig) (p : Finset String) (env : Env)
    (h : runOk env) :
    run_rule rule (some p) env =
      { stats := (finalState rule p env).stats,
        calls := (finalState rule p env).calls ++ [.logout], raised := false,
        fs := (finalState rule p env).fs,
        caller := (finalState rule p env).caller } := by
  obtain ⟨h1, h2, h3⟩ := h
  simp [run_rule, h1, h2, h3, finalState, initState]

/-! ### The attachment loop -/

theorem processAttachment_cases (env : Env) (rule : RuleConfig) (msg : Msg)
    (u mid : String) (i : Nat) (s : RunStats) (fsv : List String)
    (fn : String) (pl : List Nat) :
    (passesFilter env rule fn = false ∧
      processAttachment env rule msg u mid (i, s, fsv) (fn, pl) = (i, s, fsv))
    ∨ (passesFilter env rule fn = true ∧ ∃ path,
        processAttachment env rule msg u mid (i, s, fsv) (fn, pl)
          = (i + 1,
             { s with
                 attachments_downloaded := s.attachments_downloaded + 1
                 downloaded_attachments := s.downloaded_attachments ++
                   [{ rule_name := rule.name
                      account_name := accountDisplayName rule
                      folder := rule.imap_folder
                      uid := u
                      message_id := mid
                      original_filename := fn
                      final_path := path
                      size_bytes := pl.length }] },
             fsv ++ [path]))
    ∨ (passesFilter env rule fn = true ∧ ∃ path,
        processAttachment env rule msg u mid (i, s, fsv) (fn, pl)
          = (i + 1, { s with errors := s.errors ++ [.writeError path] }, fsv)) := by
  by_cases h : passesFilter env rule fn = true
  · by_cases hw : env.writeOk (build_download_filename env msg fn rule (i + 1) fsv) = true
    · exact Or.inr (Or.inl ⟨h, build_download_filename env msg fn rule (i + 1) fsv,
        by simp [processAttachment, h, hw]⟩)
    · exact Or.inr (Or.inr ⟨h, build_download_filename env msg fn rule (i + 1) fsv,
        by simp [processAttachment, h, hw]⟩)
  · exact Or.inl ⟨by simpa using h, by simp [processAttachment, h]⟩

theorem processAttachment_fst (env : Env) (rule : RuleConfig) (msg : Msg)
    (u mid : String) (acc : Nat × RunStats × List String)
    (att : String × List Nat) :
    (processAttachment env rule msg u mid acc att).1
      = if passesFilter env rule att.1 then acc.1 + 1 else acc.1 := by
  rcases acc with ⟨i, s, fsv⟩
  rcases att with ⟨fn, pl⟩
  rcases processAttachment_cases env rule msg u mid i s fsv fn pl with
    ⟨h, he⟩ | ⟨h, _, he⟩ | ⟨h, _, he⟩ <;> simp [he, h]

/-- `attachment_index` after the loop counts the filter-passing attachments. -/
theorem attachFold_fst (env : Env) (rule : RuleConfig) (msg : Msg)
    (u mid : String) (l : List (String × List Nat)) :
    ∀ acc : Nat × RunStats × List String,
      (l.foldl (processAttachment env rule msg u mid) acc).1
        = acc.1 + l.countP (fun att => passesFilter env rule att.1) := by
  induction l with
  | nil => intro acc; simp
  | cons a l ih =>
    intro acc
    rw [List.foldl_cons, List.countP_cons, ih]
    rw [processAttachment_fst]
    by_cases h : passesFilter env rule a.1 = true
    · simp [h]
      try omega
    · simp [h]
      try omega

/-- The statistics component after the attachment loop: the processed-UID
set and message counter are untouched, errors grow only by write errors,
and appended records carry this message's UID. -/
theorem attachFold_stats (env : Env) (rule : RuleConfig) (msg : Msg)
    (u mid : String) (l : List (String × List Nat)) :
    ∀ acc : Nat × RunStats × List String,
      (l.foldl (processAttachment env rule msg u mid) acc).2.1.processed_uids
          = acc.2.1.processed_uids
      ∧ (l.foldl (processAttachment env rule msg u mid) acc).2.1.emails_processed
          = acc.2.1.emails_processed
      ∧ (∃ es, (l.foldl (processAttachment env rule msg u mid) acc).2.1.errors
            = acc.2.1.errors ++ es ∧ ∀ e ∈ es, ∃ path, e = RunError.writeError path)
      ∧ (∃ rs, (l.foldl (processAttachment env rule msg u mid)
              acc).2.1.downloaded_attachments
            = acc.2.1.downloaded_attachments ++ rs ∧ ∀ r ∈ rs, r.uid = u) := by
  induction l with
  | nil => intro acc; exact ⟨rfl, rfl, ⟨[], by simp⟩, ⟨[], by simp⟩⟩
  | cons a l ih =>
    intro acc
    rcases acc with ⟨i, s, fsv⟩
    rcases a with ⟨fn, pl⟩
    rcases processAttachment_cases env rule msg u mid i s fsv fn pl with
      ⟨_, heq⟩ | ⟨_, path, heq⟩ | ⟨_, path, heq⟩ <;>
      rw [List.foldl_cons, heq]
    · exact ih (i, s, fsv)
    · obtain ⟨hp, he, ⟨es, hes, hesw⟩, ⟨rs, hrs, hru⟩⟩ := ih _
      refine ⟨by simpa using hp, by simpa using he,
        ⟨es, by simpa using hes, hesw⟩, ?_⟩
      refine ⟨{ rule_name := rule.name
                account_name := accountDisplayName rule
                folder := rule.imap_folder
                uid := u
                message_id := mid
                original_filename := fn
                final_path := path
                size_bytes := pl.length } :: rs, by simpa using hrs, ?_⟩
      intro r hr
      rcases List.mem_cons.1 hr with rfl | hr
      · rfl
      · exact hru r hr
    · obtain ⟨hp, he, ⟨es, hes, hesw⟩, ⟨rs, hrs, hru⟩⟩ := ih _
      refine ⟨by simpa using hp, by simpa using he, ?_, ⟨rs, by simpa using hrs, hru⟩⟩
      refine ⟨RunError.writeError path :: es, by simpa using hes, ?_⟩
      intro e hev
      rcases List.mem_cons.1 hev with rfl | hev
      · exact ⟨path, rfl⟩
      · exact hesw e hev

/-- `attachment_index > 0` after the loop iff some attachment passes the
filter. -/
theorem attachIndex_pos_iff (env : Env) (rule : RuleConfig) (m : Msg)
    (u mid : String) (s0 : RunStats) (fs0 : List String) :
    (0 < ((iter_attachments m).foldl (processAttachment env rule m u mid)
        (0, s0, fs0)).1) ↔ msgQualifies env rule m = true := by
  rw [attachFold_fst]
  simp [msgQualifies, List.any_eq_true, List.countP_pos_iff]

/-! ### The per-UID loop: single-step lemmas -/

theorem processUid_caller (env : Env) (rule : RuleConfig) (st : LoopState)
    (uid : Nat) : (processUid env rule st uid).caller = st.caller := by
  unfold processUid
  by_cases h : Nat.repr uid ∈ st.caller
  · simp [h]
  · rcases hf : env.session.fetch uid with _ | m
    · simp [h, hf]
    · simp only [h, if_false, hf]
      split <;> rfl

theorem processUid_skip (env : Env) (rule : RuleConfig) (st : LoopState)
    (uid : Nat) (h : Nat.repr uid ∈ st.caller) :
    processUid env rule st uid = st := by
  simp [processUid, h]

theorem processUid_fetchFail (env : Env) (rule : RuleConfig) (st : LoopState)
    (uid : Nat) (h : Nat.repr uid ∉ st.caller)
    (hf : env.session.fetch uid = none) :
    processUid env rule st uid =
      { st with
          stats := { st.stats with errors := st.stats.errors ++ [.fetchError uid] }
          calls := st.calls ++ [.fetch uid] } := by
  simp [processUid, h, hf]

theorem processUid_processed (env : Env) (rule : RuleConfig) (st : LoopState)
    (uid : Nat) :
    (processUid env rule st uid).stats.processed_uids =
      if uidQualifies env rule st.caller uid = true then
        insert (Nat.repr uid) st.stats.processed_uids
      else st.stats.processed_uids := by
  by_cases h : Nat.repr uid ∈ st.caller
  · rw [processUid_skip env rule st uid h]
    simp [uidQualifies, h]
  · rcases hf : env.session.fetch uid with _ | m
    · rw [processUid_fetchFail env rule st uid h hf]
      simp [uidQualifies, h, hf]
    · have hq : uidQualifies env rule st.caller uid = msgQualifies env rule m := by
        simp [uidQualifies, h, hf]
      rw [hq]
      unfold processUid
      simp only [h, if_false, hf]
      have hp : ((iter_attachments m).foldl
          (processAttachment env rule m (Nat.repr uid) m.message_id)
          (0, { st.stats with emails_processed := st.stats.emails_processed + 1 },
            st.fs)).2.1.processed_uids = st.stats.processed_uids := by
        simpa using (attachFold_stats env rule m (Nat.repr uid) m.message_id
          (iter_attachments m)
          (0, { st.stats with emails_processed := st.stats.emails_processed + 1 },
            st.fs)).1
      by_cases hpos :
          0 < ((iter_attachments m).foldl
            (processAttachment env rule m (Nat.repr uid) m.message_id)
            (0, { st.stats with emails_processed := st.stats.emails_processed + 1 },
              st.fs)).1
      · have hqual := (attachIndex_pos_iff env rule m (Nat.repr uid) m.message_id
          { st.stats with emails_processed := st.stats.emails_processed + 1 }
          st.fs).1 hpos
        simp [hpos, hqual, hp]
      · have hqual : msgQualifies env rule m = false := by
          rcases Bool.eq_false_or_eq_true (msgQualifies env rule m) with hh | hh
          · exact absurd ((attachIndex_pos_iff env rule m (Nat.repr uid)
              m.message_id _ _).2 hh) hpos
          · exact hh
        simp [hpos, hqual, hp]

/-- The exact call trace appended by one successfully fetched message. -/
theorem processUid_fetched_calls (env : Env) (rule : RuleConfig) (st : LoopState)
    (uid : Nat) (m : Msg) (h : Nat.repr uid ∉ st.caller)
    (hf : env.session.fetch uid = some m) :
    (processUid env rule st uid).calls =
      st.calls ++ [.fetch uid] ++
        (if msgQualifies env rule m = true then
          (if rule.mark_as_read then
            [Call.markSeen uid (env.session.markSeenOk uid)] else []) ++
          (if rule.move_to_folder ≠ "" then
            [Call.move uid rule.move_to_folder (env.session.moveOk uid)] else [])
         else []) := by
  unfold processUid
  simp only [h, if_false, hf]
  by_cases hpos :
      0 < ((iter_attachments m).foldl
        (processAttachment env rule m (Nat.repr uid) m.message_id)
        (0, { st.stats with emails_processed := st.stats.emails_processed + 1 },
          st.fs)).1
  · have hqual := (attachIndex_pos_iff env rule m (Nat.repr uid) m.message_id
      { st.stats with emails_processed := st.stats.emails_processed + 1 }
      st.fs).1 hpos
    simp [hpos, hqual]
  · have hqual : msgQualifies env rule m = false := by
      rcases Bool.eq_false_or_eq_true (msgQualifies env rule m) with hh | hh
      · exact absurd ((attachIndex_pos_iff env rule m (Nat.repr uid)
          m.message_id _ _).2 hh) hpos
      · exact hh
    simp [hpos, hqual]

/-- Every call appended by one loop step concerns that step's UID. -/
theorem processUid_calls_append (env : Env) (rule : RuleConfig) (st : LoopState)
    (uid : Nat) :
    ∃ cs, (processUid env rule st uid).calls = st.calls ++ cs ∧
      ∀ c ∈ cs,
        c = Call.fetch uid ∨
        c = Call.markSeen uid (env.session.markSeenOk uid) ∨
        c = Call.move uid rule.move_to_folder (env.session.moveOk uid) := by
  by_cases h : Nat.repr uid ∈ st.caller
  · exact ⟨[], by simp [processUid_skip env rule st uid h]⟩
  · rcases hf : env.session.fetch uid with _ | m
    · refine ⟨[.fetch uid], ?_, ?_⟩
      · rw [processUid_fetchFail env rule st uid h hf]
      · intro c hc
        rcases List.mem_singleton.1 hc with rfl
        exact Or.inl rfl
    · have hceq := processUid_fetched_calls env rule st uid m h hf
      rw [List.append_assoc] at hceq
      refine ⟨_, hceq, ?_⟩
      intro c hc
      rcases List.mem_append.1 hc with hc | hc
      · rcases List.mem_singleton.1 hc with rfl
        exact Or.inl rfl
      · split at hc
        · rcases List.mem_append.1 hc with hc | hc
          · split at hc
            · rcases List.mem_singleton.1 hc with rfl
              exact Or.inr (Or.inl rfl)
            · exact absurd hc (List.not_mem_nil c)
          · split at hc
            · rcases List.mem_singleton.1 hc with rfl
              exact Or.inr (Or.inr rfl)
            · exact absurd hc (List.not_mem_nil c)
        · exact absurd hc (List.not_mem_nil c)

/-- One loop step appends at most write errors and possibly one fetch error
for its own UID. -/
theorem processUid_errors_append (env : Env) (rule : RuleConfig)
    (st : LoopState) (uid : Nat) :
    ∃ es, (processUid env rule st uid).stats.errors = st.stats.errors ++ es ∧
      ∀ e ∈ es, e = RunError.fetchError uid ∨ ∃ path, e = RunError.writeError path := by
  by_cases h : Nat.repr uid ∈ st.caller
  · exact ⟨[], by simp [processUid_skip env rule st uid h]⟩
  · rcases hf : env.session.fetch uid with _ | m
    · refine ⟨[.fetchError uid], ?_, ?_⟩
      · rw [processUid_fetchFail env rule st uid h hf]
      · intro e he
        rcases List.mem_singleton.1 he with rfl
        exact Or.inl rfl
    · obtain ⟨_, _, ⟨es, hes, hesw⟩, _⟩ := attachFold_stats env rule m
        (Nat.repr uid) m.message_id (iter_attachments m)
        (0, { st.stats with emails_processed := st.stats.emails_processed + 1 },
          st.fs)
      refine ⟨es, ?_, fun e he => Or.inr (hesw e he)⟩
      unfold processUid
      simp only [h, if_false, hf]
      split
      · simpa using hes
      · simpa using hes

/-- Records appended by one loop step carry that UID, which was not in the
caller's set. -/
theorem processUid_records (env : Env) (rule : RuleConfig) (st : LoopState)
    (uid : Nat) :
    ∀ r ∈ (processUid env rule st uid).stats.downloaded_attachments,
      r ∈ st.stats.downloaded_attachments ∨
        (r.uid = Nat.repr uid ∧ Nat.repr uid ∉ st.caller) := by
  by_cases h : Nat.repr uid ∈ st.caller
  · rw [processUid_skip env rule st uid h]
    exact fun r hr => Or.inl hr
  · rcases hf : env.session.fetch uid with _ | m
    · rw [processUid_fetchFail env rule st uid h hf]
      exact fun r hr => Or.inl hr
    · obtain ⟨_, _, _, ⟨rs, hrs, hru⟩⟩ := attachFold_stats env rule m
        (Nat.repr uid) m.message_id (iter_attachments m)
        (0, { st.stats with emails_processed := st.stats.emails_processed + 1 },
          st.fs)
      have key : (processUid env rule st uid).stats.downloaded_attachments
          = st.stats.downloaded_attachments ++ rs := by
        unfold processUid
        simp only [h, if_false, hf]
        split
        · simpa using hrs
        · simpa using hrs
      rw [key]
      intro r hr
      rcases List.mem_append.1 hr with hr | hr
      · exact Or.inl hr
      · exact Or.inr ⟨hru r hr, h⟩

/-- The statistics, directory contents and caller set produced by one loop
step do not depend on whether the post-action calls succeed (their failures
are only logged), nor on the call trace accumulated so far. -/
theorem processUid_post_free (env : Env) (rule : RuleConfig) (f g : Nat → Bool)
    (sstats : RunStats) (sfs : List String) (cs cs' : List Call)
    (scaller : Finset String) (uid : Nat) :
    ((processUid { env with session := { env.session with markSeenOk := f, moveOk := g } }
        rule { stats := sstats, fs := sfs, calls := cs', caller := scaller } uid).stats
      = (processUid env rule
          { stats := sstats, fs := sfs, calls := cs, caller := scaller } uid).stats)
    ∧ ((processUid { env with session := { env.session with markSeenOk := f, moveOk := g } }
        rule { stats := sstats, fs := sfs, calls := cs', caller := scaller } uid).fs
      = (processUid env rule
          { stats := sstats, fs := sfs, calls := cs, caller := scaller } uid).fs)
    ∧ ((processUid { env with session := { env.session with markSeenOk := f, moveOk := g } }
        rule { stats := sstats, fs := sfs, calls := cs', caller := scaller } uid).caller
      = (processUid env rule
          { stats := sstats, fs := sfs, calls := cs, caller := scaller } uid).caller) := by
  have hpa : processAttachment
      { env with session := { env.session with markSeenOk := f, moveOk := g } }
      rule = processAttachment env rule := rfl
  by_cases h : Nat.repr uid ∈ scaller
  · simp [processUid, h]
  · rcases hf : env.session.fetch uid with _ | m
    · simp [processUid, h, hf]
    · unfold processUid
      simp only [h, if_false, hf, hpa]
      by_cases hpos :
          0 < ((iter_attachments m).foldl
            (processAttachment env rule m (Nat.repr uid) m.message_id)
            (0, { sstats with emails_processed := sstats.emails_processed + 1 },
              sfs)).1
      · simp [hpos]
      · simp [hpos]

/-! ### The per-UID loop: whole-loop lemmas -/

theorem foldUids_caller (env : Env) (rule : RuleConfig) (uids : List Nat) :
    ∀ st : LoopState, (uids.foldl (processUid env rule) st).caller = st.caller := by
  induction uids with
  | nil => intro st; rfl
  | cons v uids ih =>
    intro st
    rw [List.foldl_cons, ih, processUid_caller]

/-- The processed-UID set after the loop: exactly the qualifying UIDs get
added. -/
theorem foldUids_processed (env : Env) (rule : RuleConfig) (uids : List Nat) :
    ∀ st : LoopState,
      (uids.foldl (processUid env rule) st).stats.processed_uids
        = st.stats.processed_uids ∪ newlyProcessed env rule st.caller uids := by
  induction uids with
  | nil => intro st; simp [newlyProcessed]
  | cons v uids ih =>
    intro st
    rw [List.foldl_cons, ih, processUid_caller, processUid_processed]
    by_cases hq : uidQualifies env rule st.caller v = true
    · simp only [hq, if_true]
      rw [Finset.insert_union]
      simp [newlyProcessed, List.filter_cons, hq]
    · simp only [hq, if_false]
      congr 1
      simp only [newlyProcessed, List.filter_cons]
      rw [if_neg (by simp [hq])]

theorem foldUids_calls_mono (env : Env) (rule : RuleConfig) (uids : List Nat) :
    ∀ (st : LoopState) (c : Call), c ∈ st.calls →
      c ∈ (uids.foldl (processUid env rule) st).calls := by
  induction uids with
  | nil => intro st c hc; exact hc
  | cons v uids ih =>
    intro st c hc
    rw [List.foldl_cons]
    obtain ⟨cs, hcs, _⟩ := processUid_calls_append env rule st v
    exact ih _ c (by rw [hcs]; exact List.mem_append_left cs hc)

theorem processUid_fetch_mem (env : Env) (rule : RuleConfig) (st : LoopState)
    (uid : Nat) (h : Nat.repr uid ∉ st.caller) :
    Call.fetch uid ∈ (processUid env rule st uid).calls := by
  rcases hf : env.session.fetch uid with _ | m
  · rw [processUid_fetchFail env rule st uid h hf]
    simp
  · rw [processUid_fetched_calls env rule st uid m h hf]
    simp

/-- A UID of the search result that is not in the caller's set is fetched. -/
theorem foldUids_fetch_mem (env : Env) (rule : RuleConfig) (uids : List Nat) :
    ∀ (st : LoopState) (uid : Nat), uid ∈ uids → Nat.repr uid ∉ st.caller →
      Call.fetch uid ∈ (uids.foldl (processUid env rule) st).calls := by
  induction uids with
  | nil => intro st uid h; exact absurd h (List.not_mem_nil uid)
  | cons v uids ih =>
    intro st uid hmem hnc
    rw [List.foldl_cons]
    rcases List.mem_cons.1 hmem with rfl | hmem
    · exact foldUids_calls_mono env rule uids _ _
        (processUid_fetch_mem env rule st uid hnc)
    · exact ih _ uid hmem (by rw [processUid_caller]; exact hnc)

/-- A UID in the caller's set is never fetched. -/
theorem foldUids_fetch_absent (env : Env) (rule : RuleConfig) (uids : List Nat) :
    ∀ (st : LoopState) (uid : Nat), Nat.repr uid ∈ st.caller →
      Call.fetch uid ∉ st.calls →
      Call.fetch uid ∉ (uids.foldl (processUid env rule) st).calls := by
  induction uids with
  | nil => intro st uid _ hc; exact hc
  | cons v uids ih =>
    intro st uid hin hc
    rw [List.foldl_cons]
    by_cases hv : v = uid
    · subst hv
      rw [processUid_skip env rule st v hin]
      exact ih st v hin hc
    · refine ih _ uid (by rw [processUid_caller]; exact hin) ?_
      obtain ⟨cs, hcs, hall⟩ := processUid_calls_append env rule st v
      rw [hcs]
      intro hmem
      rcases List.mem_append.1 hmem with hmem | hmem
      · exact hc hmem
      · rcases hall _ hmem with he | he | he
        · exact hv (by simpa using he.symm)
        · simp at he
        · simp at he

/-- Records accumulated by the loop never carry a UID from the caller's
set. -/
theorem foldUids_records (env : Env) (rule : RuleConfig) (uids : List Nat)
    (p : Finset String) :
    ∀ st : LoopState, st.caller = p →
      (∀ r ∈ st.stats.downloaded_attachments, r.uid ∉ p) →
      ∀ r ∈ (uids.foldl (processUid env rule) st).stats.downloaded_attachments,
        r.uid ∉ p := by
  induction uids with
  | nil => intro st _ hr; exact hr
  | cons v uids ih =>
    intro st hcal hr
    rw [List.foldl_cons]
    refine ih _ (by rw [processUid_caller]; exact hcal) ?_
    intro r hrm
    rcases processUid_records env rule st v r hrm with hrm | ⟨hru, hnc⟩
    · exact hr r hrm
    · rw [hru]
      rw [hcal] at hnc
      exact hnc

/-! ### Counting error entries and post-action calls -/

/-- Is this call a mark-seen for `uid`? -/
def isMarkSeenFor (uid : Nat) : Call → Bool
  | .markSeen u _ => u == uid
  | _ => false

/-- Is this call a move for `uid`? -/
def isMoveFor (uid : Nat) : Call → Bool
  | .move u _ _ => u == uid
  | _ => false

theorem processUid_fetchErrCount_other (env : Env) (rule : RuleConfig)
    (st : LoopState) (v uid : Nat) (hne : v ≠ uid) :
    ((processUid env rule st v).stats.errors).count (RunError.fetchError uid)
      = (st.stats.errors).count (RunError.fetchError uid) := by
  obtain ⟨es, hes, hall⟩ := processUid_errors_append env rule st v
  rw [hes, List.count_append]
  have : es.count (RunError.fetchError uid) = 0 := by
    rw [List.count_eq_zero]
    intro hmem
    rcases hall _ hmem with he | ⟨path, he⟩
    · rw [RunError.fetchError.injEq] at he
      exact hne he.symm
    · exact absurd he (by simp)
  omega

theorem processUid_fetchErrCount_self (env : Env) (rule : RuleConfig)
    (st : LoopState) (uid : Nat) (h : Nat.repr uid ∉ st.caller)
    (hf : env.session.fetch uid = none) :
    ((processUid env rule st uid).stats.errors).count (RunError.fetchError uid)
      = (st.stats.errors).count (RunError.fetchError uid) + 1 := by
  rw [processUid_fetchFail env rule st uid h hf]
  simp [List.count_append]

theorem foldUids_fetchErrCount_notmem (env : Env) (rule : RuleConfig)
    (uids : List Nat) (uid : Nat) (hnm : uid ∉ uids) :
    ∀ st : LoopState,
      ((uids.foldl (processUid env rule) st).stats.errors).count
          (RunError.fetchError uid)
        = (st.stats.errors).count (RunError.fetchError uid) := by
  induction uids with
  | nil => intro st; rfl
  | cons v uids ih =>
    intro st
    rw [List.foldl_cons,
      ih (fun hm => hnm (List.mem_cons_of_mem v hm)),
      processUid_fetchErrCount_other env rule st v uid
        (fun he => hnm (he ▸ List.mem_cons_self v uids))]

/-- A failing fetch contributes exactly one error entry for its UID over the
whole loop (the UID occurs once in the search result). -/
theorem foldUids_fetchErrCount (env : Env) (rule : RuleConfig) (uids : List Nat)
    (uid : Nat) (hnd : uids.Nodup) (hmem : uid ∈ uids)
    (hf : env.session.fetch uid = none) :
    ∀ st : LoopState, Nat.repr uid ∉ st.caller →
      ((uids.foldl (processUid env rule) st).stats.errors).count
          (RunError.fetchError uid)
        = (st.stats.errors).count (RunError.fetchError uid) + 1 := by
  induction uids with
  | nil => exact absurd hmem (List.not_mem_nil uid)
  | cons v uids ih =>
    intro st hnc
    rw [List.foldl_cons]
    rcases List.mem_cons.1 hmem with rfl | hmem
    · rw [foldUids_fetchErrCount_notmem env rule uids uid
        (List.Nodup.not_mem hnd)]
      exact processUid_fetchErrCount_self env rule st uid hnc hf
    · have hne : v ≠ uid := by
        rintro rfl
        exact List.Nodup.not_mem hnd hmem
      rw [ih (List.Nodup.of_cons hnd) hmem _
        (by rw [processUid_caller]; exact hnc)]
      rw [processUid_fetchErrCount_other env rule st v uid hne]

theorem processUid_markSeenCount_other (env : Env) (rule : RuleConfig)
    (st : LoopState) (v uid : Nat) (hne : v ≠ uid) :
    ((processUid env rule st v).calls).countP (isMarkSeenFor uid)
      = (st.calls).countP (isMarkSeenFor uid) := by
  obtain ⟨cs, hcs, hall⟩ := processUid_calls_append env rule st v
  rw [hcs, List.countP_append]
  have : cs.countP (isMarkSeenFor uid) = 0 := by
    rw [List.countP_eq_zero]
    intro c hmem
    rcases hall _ hmem with he | he | he <;> subst he <;> simp [isMarkSeenFor]
    omega
  omega

theorem processUid_moveCount_other (env : Env) (rule : RuleConfig)
    (st : LoopState) (v uid : Nat) (hne : v ≠ uid) :
    ((processUid env rule st v).calls).countP (isMoveFor uid)
      = (st.calls).countP (isMoveFor uid) := by
  obtain ⟨cs, hcs, hall⟩ := processUid_calls_append env rule st v
  rw [hcs, List.countP_append]
  have : cs.countP (isMoveFor uid) = 0 := by
    rw [List.countP_eq_zero]
    intro c hmem
    rcases hall _ hmem with he | he | he <;> subst he <;> simp [isMoveFor]
    omega
  omega

theorem processUid_markSeenCount_self (env : Env) (rule : RuleConfig)
    (st : LoopState) (uid : Nat) (m : Msg) (h : Nat.repr uid ∉ st.caller)
    (hf : env.session.fetch uid = some m)
    (hq : msgQualifies env rule m = true) (hmark : rule.mark_as_read = true) :
    ((processUid env rule st uid).calls).countP (isMarkSeenFor uid)
      = (st.calls).countP (isMarkSeenFor uid) + 1 := by
  rw [processUid_fetched_calls env rule st uid m h hf]
  by_cases hmv : rule.move_to_folder ≠ "" <;>
    simp [hq, hmark, hmv, List.countP_append, List.countP_cons, isMarkSeenFor]

theorem processUid_moveCount_self (env : Env) (rule : RuleConfig)
    (st : LoopState) (uid : Nat) (m : Msg) (h : Nat.repr uid ∉ st.caller)
    (hf : env.session.fetch uid = some m)
    (hq : msgQualifies env rule m = true) (hmv : rule.move_to_folder ≠ "") :
    ((processUid env rule st uid).calls).countP (isMoveFor uid)
      = (st.calls).countP (isMoveFor uid) + 1 := by
  rw [processUid_fetched_calls env rule st uid m h hf]
  by_cases hmark : rule.mark_as_read = true <;>
    simp [hq, hmark, hmv, List.countP_append, List.countP_cons,
      isMarkSeenFor, isMoveFor]

theorem foldUids_markSeenCount_notmem (env : Env) (rule : RuleConfig)
    (uids : List Nat) (uid : Nat) (hnm : uid ∉ uids) :
    ∀ st : LoopState,
      ((uids.foldl (processUid env rule) st).calls).countP (isMarkSeenFor uid)
        = (st.calls).countP (isMarkSeenFor uid) := by
  induction uids with
  | nil => intro st; rfl
  | cons v uids ih =>
    intro st
    rw [List.foldl_cons,
      ih (fun hm => hnm (List.mem_cons_of_mem v hm)),
      processUid_markSeenCount_other env rule st v uid
        (fun he => hnm (he ▸ List.mem_cons_self v uids))]

theorem foldUids_moveCount_notmem (env : Env) (rule : RuleConfig)
    (uids : List Nat) (uid : Nat) (hnm : uid ∉ uids) :
    ∀ st : LoopState,
      ((uids.foldl (processUid env rule) st).calls).countP (isMoveFor uid)
        = (st.calls).countP (isMoveFor uid) := by
  induction uids with
  | nil => intro st; rfl
  | cons v uids ih =>
    intro st
    rw [List.foldl_cons,
      ih (fun hm => hnm (List.mem_cons_of_mem v hm)),
      processUid_moveCount_other env rule st v uid
        (fun he => hnm (he ▸ List.mem_cons_self v uids))]

/-- Exactly one mark-seen call is attempted for a qualifying UID. -/
theorem foldUids_markSeenCount (env : Env) (rule : RuleConfig) (uids : List Nat)
    (uid : Nat) (m : Msg) (hnd : uids.Nodup) (hmem : uid ∈ uids)
    (hf : env.session.fetch uid = some m) (hq : msgQualifies env rule m = true)
    (hmark : rule.mark_as_read = true) :
    ∀ st : LoopState, Nat.repr uid ∉ st.caller →
      ((uids.foldl (processUid env rule) st).calls).countP (isMarkSeenFor uid)
        = (st.calls).countP (isMarkSeenFor uid) + 1 := by
  induction uids with
  | nil => exact absurd hmem (List.not_mem_nil uid)
  | cons v uids ih =>
    intro st hnc
    rw [List.foldl_cons]
    rcases List.mem_cons.1 hmem with rfl | hmem
    · rw [foldUids_markSeenCount_notmem env rule uids uid
        (List.Nodup.not_mem hnd)]
      exact processUid_markSeenCount_self env rule st uid m hnc hf hq hmark
    · have hne : v ≠ uid := by
        rintro rfl
        exact List.Nodup.not_mem hnd hmem
      rw [ih (List.Nodup.of_cons hnd) hmem _
        (by rw [processUid_caller]; exact hnc)]
      rw [processUid_markSeenCount_other env rule st v uid hne]

/-- Exactly one move call is attempted for a qualifying UID. -/
theorem foldUids_moveCount (env : Env) (rule : RuleConfig) (uids : List Nat)
    (uid : Nat) (m : Msg) (hnd : uids.Nodup) (hmem : uid ∈ uids)
    (hf : env.session.fetch uid = some m) (hq : msgQualifies env rule m = true)
    (hmv : rule.move_to_folder ≠ "") :
    ∀ st : LoopState, Nat.repr uid ∉ st.caller →
      ((uids.foldl (processUid env rule) st).calls).countP (isMoveFor uid)
        = (st.calls).countP (isMoveFor uid) + 1 := by
  induction uids with
  | nil => exact absurd hmem (List.not_mem_nil uid)
  | cons v uids ih =>
    intro st hnc
    rw [List.foldl_cons]
    rcases List.mem_cons.1 hmem with rfl | hmem
    · rw [foldUids_moveCount_notmem env rule uids uid
        (List.Nodup.not_mem hnd)]
      exact processUid_moveCount_self env rule st uid m hnc hf hq hmv
    · have hne : v ≠ uid := by
        rintro rfl
        exact List.Nodup.not_mem hnd hmem
      rw [ih (List.Nodup.of_cons hnd) hmem _
        (by rw [processUid_caller]; exact hnc)]
      rw [processUid_moveCount_other env rule st v uid hne]

/-- Over the whole loop, statistics, directory contents and caller set do not
depend on post-action success or on the call trace accumulated so far. -/
theorem foldUids_post_free (env : Env) (rule : RuleConfig) (f g : Nat → Bool)
    (uids : List Nat) :
    ∀ st st' : LoopState, st'.stats = st.stats → st'.fs = st.fs →
      st'.caller = st.caller →
      ((uids.foldl (processUid
          { env with session := { env.session with markSeenOk := f, moveOk := g } }
          rule) st').stats
        = (uids.foldl (processUid env rule) st).stats)
      ∧ ((uids.foldl (processUid
          { env with session := { env.session with markSeenOk := f, moveOk := g } }
          rule) st').fs
        = (uids.foldl (processUid env rule) st).fs)
      ∧ ((uids.foldl (processUid
          { env with session := { env.session with markSeenOk := f, moveOk := g } }
          rule) st').caller
        = (uids.foldl (processUid env rule) st).caller) := by
  induction uids with
  | nil => intro st st' hs hfs hc; exact ⟨hs, hfs, hc⟩
  | cons v uids ih =>
    intro st st' hs hfs hc
    rcases st with ⟨s1, f1, c1, a1⟩
    rcases st' with ⟨s2, f2, c2, a2⟩
    simp only at hs hfs hc
    subst hs; subst hfs; subst hc
    rw [List.foldl_cons, List.foldl_cons]
    obtain ⟨h1, h2, h3⟩ := processUid_post_free env rule f g s2 f2 c1 c2 a2 v
    exact ih _ _ h1 h2 h3

/-! ### Collision resolution: correctness of the `while exists()` loop -/

theorem string_data_ext {s t : String} (h : s.data = t.data) : s = t := by
  cases s; cases t; exact congrArg String.mk h

theorem candidate_inj (safe extStr : String) :
    Function.Injective (candidate safe extStr) := by
  intro a b h
  simp only [candidate] at h
  have h2 := congrArg String.data h
  simp only [String.data_append] at h2
  have h3 := List.append_cancel_right h2
  have h4 := List.append_cancel_left h3
  exact natRepr_injective (string_data_ext h4)

/-- Among any `fs.length + 1` consecutive counters there is a collision-free
candidate: the finitely many existing names cannot meet all the (pairwise
distinct) candidate names. -/
theorem exists_free_candidate (fs : List String) (safe extStr : String)
    (c : Nat) :
    ∃ j, j < fs.length + 1 ∧ candidate safe extStr (c + j) ∉ fs := by
  by_contra hcon
  push_neg at hcon
  have hinj : Function.Injective (fun j : Nat => candidate safe extStr (c + j)) := by
    intro x y hxy
    have := candidate_inj safe extStr hxy
    omega
  have hsub : (Finset.range (fs.length + 1)).image
      (fun j => candidate safe extStr (c + j)) ⊆ fs.toFinset := by
    intro x hx
    rw [Finset.mem_image] at hx
    obtain ⟨j, hj, rfl⟩ := hx
    rw [List.mem_toFinset]
    exact hcon j (Finset.mem_range.1 hj)
  have hcard : ((Finset.range (fs.length + 1)).image
      (fun j => candidate safe extStr (c + j))).card = fs.length + 1 := by
    rw [Finset.card_image_of_injective _ hinj, Finset.card_range]
  have hle1 := Finset.card_le_card hsub
  have hle2 := fs.toFinset_card_le
  omega

theorem resolveCollisionAux_spec (fs : List String) (safe extStr : String) :
    ∀ (fuel c : Nat), (∃ j, j < fuel ∧ candidate safe extStr (c + j) ∉ fs) →
      resolveCollisionAux fs safe extStr fuel c ∉ fs ∧
      ∃ j, resolveCollisionAux fs safe extStr fuel c
        = candidate safe extStr (c + j) := by
  intro fuel
  induction fuel with
  | zero =>
    intro c h
    obtain ⟨j, hj, _⟩ := h
    omega
  | succ fuel ih =>
    intro c h
    obtain ⟨j, hj, hfree⟩ := h
    rw [resolveCollisionAux]
    by_cases hc : candidate safe extStr c ∈ fs
    · rw [if_pos hc]
      have hj0 : j ≠ 0 := by
        rintro rfl
        rw [Nat.add_zero] at hfree
        exact hfree hc
      obtain ⟨j', rfl⟩ := Nat.exists_eq_succ_of_ne_zero hj0
      have hrec := ih (c + 1)
        ⟨j', by omega, by rw [show c + 1 + j' = c + (j' + 1) by omega]; exact hfree⟩
      refine ⟨hrec.1, ?_⟩
      obtain ⟨j2, hj2⟩ := hrec.2
      exact ⟨j2 + 1, by rw [show c + (j2 + 1) = c + 1 + j2 by omega]; exact hj2⟩
    · rw [if_neg hc]
      exact ⟨hc, 0, by rw [Nat.add_zero]⟩

/-- `resolveCollision` returns a free name; it keeps the computed name when
that is free and otherwise returns `f"{base}_{k}{ext}"` for some `k ≥ 2`. -/
theorem resolveCollision_spec (fs : List String) (safe extStr : String) :
    resolveCollision fs safe extStr ∉ fs ∧
    (safe ∉ fs → resolveCollision fs safe extStr = safe) ∧
    (safe ∈ fs → ∃ k, 2 ≤ k ∧
      resolveCollision fs safe extStr = candidate safe extStr k) := by
  unfold resolveCollision
  by_cases h : safe ∈ fs
  · rw [if_pos h]
    obtain ⟨j, hj, hfree⟩ := exists_free_candidate fs safe extStr 2
    obtain ⟨hnot, j2, heq⟩ :=
      resolveCollisionAux_spec fs safe extStr (fs.length + 1) 2 ⟨j, hj, hfree⟩
    exact ⟨hnot, fun hn => absurd h hn, fun _ => ⟨2 + j2, by omega, heq⟩⟩
  · rw [if_neg h]
    exact ⟨h, fun _ => rfl, fun hmem => absurd hmem h⟩

/-! ## Concrete fixtures used to instantiate and refute claims -/

/-- A well-formed attachment part. -/
def exPartGood : MsgPart :=
  { content_disposition := some "attachment", filename := some "a.txt",
    payload := some [104, 105] }

/-- An attachment part whose payload cannot be decoded
(`get_payload(decode=True)` returns `None`). -/
def exPartMalformed : MsgPart :=
  { content_disposition := some "attachment", filename := some "a.txt",
    payload := none }

/-- A message with one good attachment. -/
def exMsg : Msg := { parts := [exPartGood] }

/-- A message whose only attachment part is malformed. -/
def exMsgMalformed : Msg := { parts := [exPartMalformed] }

/-- A malformed part followed by a good one. -/
def exMsgMixed : Msg :=
  { parts := [exPartMalformed,
      { content_disposition := some "attachment", filename := some "b.pdf",
        payload := some [7] }] }

def exAccount : EmailAccountConfig := { username := "u" }

/-- A rule with both post-actions configured. -/
def exRule : RuleConfig :=
  { account := exAccount, name := "R", dest_folder := "d",
    move_to_folder := "Archive" }

/-- A rule with template `{rule_name}{ext}`. -/
def exRuleTmpl : RuleConfig :=
  { account := exAccount, name := "f", filename_template := [.rule_name, .ext] }

/-- A rule with the default template. -/
def exRuleC6 : RuleConfig := { account := exAccount, name := "R" }

/-- One message with UID 1 in the folder. -/
def exSession : Session :=
  { searchResult := [1], fetch := fun n => if n = 1 then some exMsg else none }

def exEnv : Env := { session := exSession, strftime := fun _ _ => "D" }

/-- Same world, but every filesystem write fails. -/
def exEnvWriteFail : Env := { exEnv with writeOk := fun _ => false }

/-- Same world, but `select_folder` raises. -/
def exEnvSelectFail : Env :=
  { exEnv with session := { exSession with selectOk := false } }

/-- Two messages, UIDs 1 and 2. -/
def exEnvTwo : Env :=
  { session :=
      { searchResult := [1, 2]
        fetch := fun n => if n = 1 ∨ n = 2 then some exMsg else none }
    strftime := fun _ _ => "D" }

/-- Fetch of UID 1 raises; UID 2 is fine. -/
def exEnvFetchFail : Env :=
  { session :=
      { searchResult := [1, 2]
        fetch := fun n => if n = 2 then some exMsg else none }
    strftime := fun _ _ => "D" }

/-! ## The claims -/

/-- C3, counterexample: a part whose payload fails to decode yields the item
`(filename, b"")` — an item with empty payload — not "no item at all" as the
claim states. -/
theorem c3_counterexample :
    iter_attachments exMsgMalformed = [("a.txt", ([] : List Nat))] ∧
    iter_attachments exMsgMalformed ≠ [] := by
  decide

/-- C3 (amended): the extractor is total and never skips a malformed part:
every yielded item comes from a part with content-disposition exactly
"attachment" and a non-empty filename, carrying the decoded payload or `b""`
when decoding failed; a malformed qualifying part still yields
`(filename, b"")`, and extraction of the remaining parts continues. -/
theorem c3_extraction_sound (m : Msg) :
    (∀ fb ∈ iter_attachments m, ∃ p ∈ m.parts,
        p.content_disposition = some "attachment" ∧ p.filename = some fb.1 ∧
        fb.1 ≠ "" ∧ fb.2 = p.payload.getD []) ∧
    (∀ p ∈ m.parts, p.content_disposition = some "attachment" →
        ∀ f, p.filename = some f → f ≠ "" → p.payload = none →
          (f, ([] : List Nat)) ∈ iter_attachments m) := by
  constructor
  · intro fb hfb
    rcases fb with ⟨f1, pl1⟩
    rw [iter_attachments, List.mem_filterMap] at hfb
    obtain ⟨p, hp, heq⟩ := hfb
    by_cases hd : p.content_disposition = some "attachment"
    · rcases hfn : p.filename with _ | f
      · simp [hd, hfn] at heq
      · by_cases hne : f = ""
        · simp [hd, hfn, hne] at heq
        · simp only [hd, hfn, hne, ne_eq, not_true_eq_false, if_false,
            if_neg hne, Option.some.injEq, Prod.mk.injEq] at heq
          obtain ⟨h1, h2⟩ := heq
          subst h1
          subst h2
          exact ⟨p, hp, hd, hfn, hne, rfl⟩
    · simp [hd] at heq
  · intro p hp hd f hf hne hpay
    rw [iter_attachments, List.mem_filterMap]
    exact ⟨p, hp, by simp [hd, hf, hne, hpay]⟩

/-- C3, witness: in a message whose first part is malformed, that part still
yields an item (with empty payload), so extraction did not abort. -/
theorem c3_witness :
    ("a.txt", ([] : List Nat)) ∈ iter_attachments exMsgMixed :=
  (c3_extraction_sound exMsgMixed).2 exPartMalformed (by decide) (by decide)
    "a.txt" rfl (by decide) rfl

/-- C4: the filename resolver never returns a name that exists in the
destination directory; it keeps the computed name when it is free, and
otherwise appends `_2`, `_3`, … before the extension (`candidate`) until a
free name is found. -/
theorem c4_no_overwrite (env : Env) (msg : Msg) (attName : String)
    (rule : RuleConfig) (index : Nat) (fs : List String) :
    build_download_filename env msg attName rule index fs ∉ fs ∧
    (computedName env msg attName rule index ∉ fs →
      build_download_filename env msg attName rule index fs
        = computedName env msg attName rule index) ∧
    (computedName env msg attName rule index ∈ fs →
      ∃ k, 2 ≤ k ∧ build_download_filename env msg attName rule index fs
        = candidate (computedName env msg attName rule index)
            (pathSuffix attName) k) := by
  unfold build_download_filename
  exact resolveCollision_spec fs (computedName env msg attName rule index)
    (pathSuffix attName)

/-- C4, witness: with `f.txt` already present, the resolver returns a
fresh suffixed name. -/
theorem c4_witness :
    build_download_filename exEnv exMsg "a.txt" exRuleTmpl 1 ["f.txt"] ∉
        ["f.txt"] ∧
    ∃ k, 2 ≤ k ∧ build_download_filename exEnv exMsg "a.txt" exRuleTmpl 1
        ["f.txt"]
      = candidate (computedName exEnv exMsg "a.txt" exRuleTmpl 1)
          (pathSuffix "a.txt") k :=
  ⟨(c4_no_overwrite exEnv exMsg "a.txt" exRuleTmpl 1 ["f.txt"]).1,
   (c4_no_overwrite exEnv exMsg "a.txt" exRuleTmpl 1 ["f.txt"]).2.2 (by decide)⟩

/-- C5: the built criteria list denotes, under IMAP search semantics, the
conjunction of the non-empty filters over the "all messages" base; with both
filters empty it matches every message. -/
theorem c5_criteria_conjunction (rule : RuleConfig) (e : Envelope) :
    matchesCriteria e (build_search_criteria rule) = true ↔
      ((rule.from_contains ≠ "" →
          containsSub e.fromAddr rule.from_contains = true) ∧
       (rule.subject_contains ≠ "" →
          containsSub e.subject rule.subject_contains = true)) := by
  unfold build_search_criteria
  by_cases hf : rule.from_contains = "" <;>
    by_cases hs : rule.subject_contains = "" <;>
      simp [hf, hs, matchesCriteria]

/-- C5, witness: for a rule with both filters empty the predicate matches an
arbitrary message. -/
theorem c5_witness :
    matchesCriteria { fromAddr := "x@y", subject := "hello" }
      (build_search_criteria { account := exAccount, name := "R" }) = true :=
  (c5_criteria_conjunction { account := exAccount, name := "R" }
    { fromAddr := "x@y", subject := "hello" }).mpr (by decide)

/-- C6: with the default template and no collision, the first attachment of a
message gets a clean filename (the `{index}` placeholder renders to the empty
string) and the `n`-th attachment with `n > 1` gets `_n` in its place. -/
theorem c6_index_placeholder (env : Env) (msg : Msg) (attName : String)
    (rule : RuleConfig) (n : Nat) (fs : List String)
    (hT : rule.filename_template = defaultTemplate)
    (h1 : computedName env msg attName rule 1 ∉ fs)
    (hn : computedName env msg attName rule n ∉ fs)
    (hgt : 1 < n) :
    build_download_filename env msg attName rule 1 fs
      = sanitize (String.join
          [env.strftime (msg.date.getD env.now) "%Y.%m.%d %H.%M",
           " - ", rule.name, "", pathSuffix attName]) ∧
    build_download_filename env msg attName rule n fs
      = sanitize (String.join
          [env.strftime (msg.date.getD env.now) "%Y.%m.%d %H.%M",
           " - ", rule.name, "_" ++ Nat.repr n, pathSuffix attName]) := by
  have e1 : build_download_filename env msg attName rule 1 fs
      = computedName env msg attName rule 1 := by
    unfold build_download_filename
    exact (resolveCollision_spec fs _ _).2.1 h1
  have en : build_download_filename env msg attName rule n fs
      = computedName env msg attName rule n := by
    unfold build_download_filename
    exact (resolveCollision_spec fs _ _).2.1 hn
  constructor
  · rw [e1]
    simp [computedName, renderTemplate, renderTok, hT, defaultTemplate,
      indexPlaceholder]
  · rw [en]
    simp [computedName, renderTemplate, renderTok, hT, defaultTemplate,
      indexPlaceholder, hgt]

/-- C6, witness: concrete clean first filename and `_2` suffix for the
second attachment of the same message. -/
theorem c6_witness :
    build_download_filename exEnv exMsg "a.txt" exRuleC6 1 [] = "D - R.txt" ∧
    build_download_filename exEnv exMsg "a.txt" exRuleC6 2 [] = "D - R_2.txt" :=
  ⟨((c6_index_placeholder exEnv exMsg "a.txt" exRuleC6 2 [] rfl (by decide)
      (by decide) (by decide)).1).trans (by decide),
   ((c6_index_placeholder exEnv exMsg "a.txt" exRuleC6 2 [] rfl (by decide)
      (by decide) (by decide)).2).trans (by decide)⟩

/-- C1, counterexample: in a run where every write fails, a message whose
only qualifying attachment fails to write is still added to the processed
set, although no attachment was saved — the claim says it must not be. -/
theorem c1_counterexample :
    (run_rule exRule (some ∅) exEnvWriteFail).stats.downloaded_attachments
        = [] ∧
    "1" ∈ (run_rule exRule (some ∅) exEnvWriteFail).stats.processed_uids := by
  decide

/-- C1 (amended): a UID enters the returned processed set iff it is in the
search result, not in the caller's set, its fetch succeeds, and at least one
of its attachments passes the filename filter — regardless of whether any
write succeeded. -/
theorem c1_processed_iff_matched (rule : RuleConfig) (p : Finset String)
    (env : Env) (h : runOk env) :
    (run_rule rule (some p) env).stats.processed_uids
      = newlyProcessed env rule p env.session.searchResult := by
  rw [run_rule_ok_eq rule p env h]
  show (finalState rule p env).stats.processed_uids = _
  rw [finalState, foldUids_processed]
  simp [initState]

/-- C1, witness: the all-writes-fail run marks exactly UID 1 processed. -/
theorem c1_witness :
    (run_rule exRule (some ∅) exEnvWriteFail).stats.processed_uids
      = newlyProcessed exEnvWriteFail exRule ∅
          exEnvWriteFail.session.searchResult :=
  c1_processed_iff_matched exRule ∅ exEnvWriteFail (by decide)

/-- C2, counterexample: when the configured folder is not selectable the run
does not return early with one recorded error — it propagates the exception
(`raised = true`) with an empty error list. -/
theorem c2_counterexample :
    (run_rule exRule (some ∅) exEnvSelectFail).raised = true ∧
    (run_rule exRule (some ∅) exEnvSelectFail).stats.errors = [] := by
  decide

/-- C2 (amended): a folder-selection failure aborts the run by propagating
the exception to the caller (no error entry is recorded and no partial
result is returned), and the session is still closed on that path by the
`finally` block. -/
theorem c2_select_failure_raises (rule : RuleConfig) (p : Finset String)
    (env : Env) (hc : env.session.connectOk = true)
    (hs : env.session.selectOk = false) :
    (run_rule rule (some p) env).raised = true ∧
    (run_rule rule (some p) env).stats.errors = [] ∧
    (run_rule rule (some p) env).calls
      = [.select rule.imap_folder, .logout] := by
  simp [run_rule, hc, hs]

/-- C2, witness. -/
theorem c2_witness :
    (run_rule exRule (some ∅) exEnvSelectFail).raised = true ∧
    (run_rule exRule (some ∅) exEnvSelectFail).stats.errors = [] ∧
    (run_rule exRule (some ∅) exEnvSelectFail).calls
      = [.select exRule.imap_folder, .logout] :=
  c2_select_failure_raises exRule ∅ exEnvSelectFail (by decide) (by decide)

/-- C7, counterexample: a message whose qualifying attachment failed to
write produced zero saved attachments, yet re-running with the returned
processed set does not re-examine it (its UID is never fetched again). -/
theorem c7_counterexample :
    (run_rule exRule (some ∅) exEnvWriteFail).stats.downloaded_attachments
        = [] ∧
    Call.fetch 1 ∉ (run_rule exRule
        (some (run_rule exRule (some ∅) exEnvWriteFail).stats.processed_uids)
        exEnvWriteFail).calls := by
  decide

/-- C7 (amended): re-running with the previously returned processed set
produces no record for a UID in that set — such UIDs are skipped before any
fetch — while UIDs not in the set (those with zero *qualifying* attachments
last time) are re-examined in full. -/
theorem c7_idempotence (rule : RuleConfig) (p : Finset String) (env : Env)
    (h : runOk env) :
    (∀ r ∈ (run_rule rule (some p) env).stats.downloaded_attachments,
        r.uid ∉ p) ∧
    (∀ uid : Nat, Nat.repr uid ∈ p →
        Call.fetch uid ∉ (run_rule rule (some p) env).calls) ∧
    (∀ uid ∈ env.session.searchResult, Nat.repr uid ∉ p →
        Call.fetch uid ∈ (run_rule rule (some p) env).calls) := by
  rw [run_rule_ok_eq rule p env h]
  refine ⟨?_, ?_, ?_⟩
  · intro r hr
    exact foldUids_records env rule env.session.searchResult p
      (initState rule p env) rfl (by simp [initState]) r hr
  · intro uid hin hmem
    rcases List.mem_append.1 hmem with hmem | hmem
    · exact foldUids_fetch_absent env rule env.session.searchResult
        (initState rule p env) uid hin (by simp [initState]) hmem
    · simp at hmem
  · intro uid hmem hnc
    exact List.mem_append_left _
      (foldUids_fetch_mem env rule env.session.searchResult
        (initState rule p env) uid hmem hnc)

/-- C7, witness: with UID 1 already processed and UID 2 not, UID 1 is never
fetched while UID 2 is. -/
theorem c7_witness :
    Call.fetch 1 ∉ (run_rule exRule (some {"1"}) exEnvTwo).calls ∧
    Call.fetch 2 ∈ (run_rule exRule (some {"1"}) exEnvTwo).calls :=
  ⟨(c7_idempotence exRule {"1"} exEnvTwo (by decide)).2.1 1 (by decide),
   (c7_idempotence exRule {"1"} exEnvTwo (by decide)).2.2 2 (by decide)
     (by decide)⟩

/-- C8: a fetch failure on one UID contributes exactly one error entry
referencing that UID, does not prevent any other eligible UID from being
fetched, and the run still terminates normally (no exception). -/
theorem c8_fetch_failure_isolated (rule : RuleConfig) (p : Finset String)
    (env : Env) (uid : Nat) (h : runOk env)
    (hnd : env.session.searchResult.Nodup)
    (hmem : uid ∈ env.session.searchResult) (hnc : Nat.repr uid ∉ p)
    (hf : env.session.fetch uid = none) :
    ((run_rule rule (some p) env).stats.errors).count (RunError.fetchError uid)
        = 1 ∧
    (∀ v ∈ env.session.searchResult, Nat.repr v ∉ p →
        Call.fetch v ∈ (run_rule rule (some p) env).calls) ∧
    (run_rule rule (some p) env).raised = false := by
  rw [run_rule_ok_eq rule p env h]
  refine ⟨?_, ?_, rfl⟩
  · have hcnt := foldUids_fetchErrCount env rule env.session.searchResult uid
      hnd hmem hf (initState rule p env) (by simp [initState, hnc])
    simpa [finalState, initState] using hcnt
  · intro v hv hvnc
    exact List.mem_append_left _
      (foldUids_fetch_mem env rule env.session.searchResult
        (initState rule p env) v hv (by simp [initState, hvnc]))

/-- C8, witness: the fetch of UID 1 fails, UID 2 is still processed, the run
terminates normally with one error entry for UID 1. -/
theorem c8_witness :
    ((run_rule exRule (some ∅) exEnvFetchFail).stats.errors).count
        (RunError.fetchError 1) = 1 ∧
    Call.fetch 2 ∈ (run_rule exRule (some ∅) exEnvFetchFail).calls ∧
    (run_rule exRule (some ∅) exEnvFetchFail).raised = false :=
  ⟨(c8_fetch_failure_isolated exRule ∅ exEnvFetchFail 1 (by decide) (by decide)
      (by decide) (by decide) (by decide)).1,
   (c8_fetch_failure_isolated exRule ∅ exEnvFetchFail 1 (by decide) (by decide)
      (by decide) (by decide) (by decide)).2.1 2 (by decide) (by decide),
   (c8_fetch_failure_isolated exRule ∅ exEnvFetchFail 1 (by decide) (by decide)
      (by decide) (by decide) (by decide)).2.2⟩

/-- C10: `run_rule` hands back the caller-supplied processed set unchanged
(the embedding threads it through every step, which only performs membership
tests), and the processed set in the returned stats is disjoint from the
input set: every UID in it was newly processed during this run. -/
theorem c10_frame (rule : RuleConfig) (p : Finset String) (env : Env) :
    (run_rule rule (some p) env).caller = p ∧
    Disjoint (run_rule rule (some p) env).stats.processed_uids p := by
  by_cases h : runOk env
  · rw [run_rule_ok_eq rule p env h]
    constructor
    · show (finalState rule p env).caller = p
      rw [finalState, foldUids_caller]
      rfl
    · show Disjoint (finalState rule p env).stats.processed_uids p
      rw [finalState, foldUids_processed]
      rw [Finset.disjoint_left]
      intro a ha
      simp only [initState, Finset.empty_union, newlyProcessed,
        List.mem_toFinset, List.mem_map, List.mem_filter] at ha
      obtain ⟨uid, ⟨_, hq⟩, rfl⟩ := ha
      simp only [uidQualifies, Bool.and_eq_true, Bool.not_eq_true',
        decide_eq_false_iff_not] at hq
      exact hq.1
  · unfold runOk at h
    by_cases h1 : env.session.connectOk = true
    · by_cases h2 : env.session.selectOk = true
      · by_cases h3 : env.session.searchOk = true
        · exact absurd ⟨h1, h2, h3⟩ h
        · simp [run_rule, h1, h2, h3]
      · simp [run_rule, h1, h2]
    · simp [run_rule, h1]

/-- Exactly one mark-seen call for a qualifying UID over the whole loop. -/
theorem finalState_markSeenCount (rule : RuleConfig) (p : Finset String)
    (env : Env) (uid : Nat) (m : Msg)
    (hnd : env.session.searchResult.Nodup)
    (hmem : uid ∈ env.session.searchResult) (hnc : Nat.repr uid ∉ p)
    (hf : env.session.fetch uid = some m)
    (hq : msgQualifies env rule m = true) (hmark : rule.mark_as_read = true) :
    ((finalState rule p env).calls).countP (isMarkSeenFor uid) = 1 := by
  rw [finalState]
  rw [foldUids_markSeenCount env rule env.session.searchResult uid m hnd hmem
    hf hq hmark (initState rule p env) (by simpa [initState] using hnc)]
  simp [initState, isMarkSeenFor]

/-- Exactly one move call for a qualifying UID over the whole loop. -/
theorem finalState_moveCount (rule : RuleConfig) (p : Finset String)
    (env : Env) (uid : Nat) (m : Msg)
    (hnd : env.session.searchResult.Nodup)
    (hmem : uid ∈ env.session.searchResult) (hnc : Nat.repr uid ∉ p)
    (hf : env.session.fetch uid = some m)
    (hq : msgQualifies env rule m = true) (hmv : rule.move_to_folder ≠ "") :
    ((finalState rule p env).calls).countP (isMoveFor uid) = 1 := by
  rw [finalState]
  rw [foldUids_moveCount env rule env.session.searchResult uid m hnd hmem
    hf hq hmv (initState rule p env) (by simpa [initState] using hnc)]
  simp [initState, isMoveFor]

/-- C9: post-action failures are invisible in the returned result — the whole
`RunStats` (counters, errors, records, processed set) and the
normal-termination flag are identical whether or not mark-seen/move succeed —
the UID stays in the processed set, and exactly one mark-seen call and one
move call are attempted for it when both post-actions are configured. -/
theorem c9_post_action_isolated (rule : RuleConfig) (p : Finset String)
    (env : Env) (f g : Nat → Bool) (uid : Nat) (m : Msg) (h : runOk env)
    (hnd : env.session.searchResult.Nodup)
    (hmem : uid ∈ env.session.searchResult) (hnc : Nat.repr uid ∉ p)
    (hf : env.session.fetch uid = some m)
    (hq : msgQualifies env rule m = true)
    (hmark : rule.mark_as_read = true) (hmv : rule.move_to_folder ≠ "") :
    ((run_rule rule (some p)
        { env with session :=
            { env.session with markSeenOk := f, moveOk := g } }).stats
      = (run_rule rule (some p) env).stats) ∧
    ((run_rule rule (some p)
        { env with session :=
            { env.session with markSeenOk := f, moveOk := g } }).raised
      = (run_rule rule (some p) env).raised) ∧
    Nat.repr uid ∈ (run_rule rule (some p) env).stats.processed_uids ∧
    (((run_rule rule (some p)
        { env with session :=
            { env.session with markSeenOk := f, moveOk := g } }).calls).countP
        (isMarkSeenFor uid) = 1) ∧
    (((run_rule rule (some p)
        { env with session :=
            { env.session with markSeenOk := f, moveOk := g } }).calls).countP
        (isMoveFor uid) = 1) := by
  have h' : runOk { env with session :=
      { env.session with markSeenOk := f, moveOk := g } } := h
  rw [run_rule_ok_eq rule p env h, run_rule_ok_eq rule p _ h']
  refine ⟨?_, rfl, ?_, ?_, ?_⟩
  · show (finalState rule p _).stats = (finalState rule p env).stats
    rw [finalState, finalState]
    exact (foldUids_post_free env rule f g env.session.searchResult
      (initState rule p env)
      (initState rule p { env with session :=
        { env.session with markSeenOk := f, moveOk := g } }) rfl rfl rfl).1
  · show Nat.repr uid ∈ (finalState rule p env).stats.processed_uids
    have hp : (finalState rule p env).stats.processed_uids
        = newlyProcessed env rule p env.session.searchResult := by
      rw [finalState, foldUids_processed]
      simp [initState]
    rw [hp]
    simp only [newlyProcessed, List.mem_toFinset, List.mem_map]
    refine ⟨uid, List.mem_filter.2 ⟨hmem, ?_⟩, rfl⟩
    simp [uidQualifies, hnc, hf, hq]
  · show ((finalState rule p _).calls ++ [Call.logout]).countP
        (isMarkSeenFor uid) = 1
    rw [List.countP_append,
      finalState_markSeenCount rule p
        { env with session := { env.session with markSeenOk := f, moveOk := g } }
        uid m hnd hmem hnc hf hq hmark]
    simp [isMarkSeenFor]
  · show ((finalState rule p _).calls ++ [Call.logout]).countP
        (isMoveFor uid) = 1
    rw [List.countP_append,
      finalState_moveCount rule p
        { env with session := { env.session with markSeenOk := f, moveOk := g } }
        uid m hnd hmem hnc hf hq hmv]
    simp [isMoveFor]

/-- C9, witness: with both post-actions failing, the run's stats equal those
of the fully-succeeding run, UID 1 is processed, and exactly one mark-seen
and one move call were attempted for it. -/
theorem c9_witness :
    ((run_rule exRule (some ∅)
        { exEnv with session :=
            { exEnv.session with
                markSeenOk := (fun _ => false)
                moveOk := (fun _ => false) } }).stats
      = (run_rule exRule (some ∅) exEnv).stats) ∧
    Nat.repr 1 ∈ (run_rule exRule (some ∅) exEnv).stats.processed_uids ∧
    (((run_rule exRule (some ∅)
        { exEnv with session :=
            { exEnv.session with
                markSeenOk := (fun _ => false)
                moveOk := (fun _ => false) } }).calls).countP
        (isMarkSeenFor 1) = 1) :=
  ⟨(c9_post_action_isolated exRule ∅ exEnv (fun _ => false) (fun _ => false)
      1 exMsg (by decide) (by decide) (by decide) (by decide) (by decide)
      (by decide) (by decide) (by decide)).1,
   (c9_post_action_isolated exRule ∅ exEnv (fun _ => false) (fun _ => false)
      1 exMsg (by decide) (by decide) (by decide) (by decide) (by decide)
      (by decide) (by decide) (by decide)).2.2.1,
   (c9_post_action_isolated exRule ∅ exEnv (fun _ => false) (fun _ => false)
      1 exMsg (by decide) (by decide) (by decide) (by decide) (by decide)
      (by decide) (by decide) (by decide)).2.2.2.1⟩

end AttachFlow
